import Mathlib

/-!
Verification of the LLM-oriented structured text formatter of gzh-cli-core.

The embedding below follows src/cli/flags.go (the `llmFormatter` methods
`format`, `formatValue`, `formatStruct`, `formatSlice`, `formatMap`,
`shouldSkipField`, `fieldNameToLabel`, `formatSpecialType`, `indent`,
`isComplexType`) and the `Output.Print` / `printLLM` dispatch of the
output file.

Modelling conventions:

* A Go `reflect.Value` tree is embedded as the inductive `Value`.  Scalar
  kinds carry exactly the data the formatter inspects.  A floating point
  number is carried as its zero test together with its rendering (the code
  only compares a float with zero and prints it), a `time.Time` as its
  `IsZero` test together with its RFC3339 rendering, a `time.Duration` as
  its zero test together with its `String()` rendering, and a value of an
  unrecognized kind as its generic rendering.
* Field identifiers are taken to be ASCII, as Go exported struct field
  names in this repository are; then byte positions coincide with rune
  positions and the `unicode` classifiers coincide with the ASCII ones.
* A nil pointer or nil interface is `ptr none`; chains of pointers and
  interfaces are nested `ptr` nodes, which the formatter dereferences.
* The output writer is modelled as the string written so far, and the
  formatter itself is, as in the source, a pure function of the value and
  the current depth.
-/

namespace Gzh

/-- Source constant `maxLLMDepth` (src/cli/flags.go). -/
def maxLLMDepth : Nat := 5

/-- Source constant `indentSize` (src/cli/flags.go). -/
def indentSize : Nat := 2

/-- Runtime view of an arbitrary Go value, as the formatter inspects it
through `reflect`. -/
inductive Value where
  | str (s : String)
  | bool (b : Bool)
  | int (n : Int)
  | uint (n : Nat)
  | float (isZero : Bool) (render : String)
  | ptr (p : Option Value)
  | struct (fields : List (String × Bool × Value))
  | slice (elems : List Value)
  | map (entries : List (Value × Value))
  | time (isZero : Bool) (rfc3339 : String)
  | duration (isZero : Bool) (render : String)
  | bytes (bs : List Nat)
  | err (msg : Option String)
  | other (render : String)

/-- `indent` (src/cli/flags.go): `strings.Repeat(" ", depth*indentSize)`. -/
def indent (depth : Nat) : String :=
  String.mk (List.replicate (depth * indentSize) ' ')

/-- `strings.Contains(s, needle)` specialised to a one-character needle,
which is the only way the formatter uses it (the needle is always the
newline). -/
def containsChar (s : String) (c : Char) : Bool :=
  s.toList.contains c

/-- `strings.Join(xs, sep)`. -/
def joinStrings (sep : String) : List String → String
  | [] => ""
  | [x] => x
  | x :: xs => x ++ sep ++ joinStrings sep xs

/-- Concatenation of a list of strings, the effect of writing each of them
in turn to a `strings.Builder`. -/
def concatAll : List String → String
  | [] => ""
  | s :: rest => s ++ concatAll rest

/-- One lowercase hexadecimal digit, as produced by the `%x` verb. -/
def hexDigit (n : Nat) : Char :=
  if n < 10 then Char.ofNat (48 + n) else Char.ofNat (87 + n)

/-- The two-digit lowercase hexadecimal rendering of one byte (`%x`). -/
def byteHex (b : Nat) : String :=
  String.mk [hexDigit (b / 16 % 16), hexDigit (b % 16)]

/-- The `%x` rendering of a byte sequence: each byte as two lowercase
hexadecimal digits. -/
def bytesHex (bs : List Nat) : String :=
  concatAll (bs.map byteHex)

/-- The `[]byte` arm of `formatSpecialType` (src/cli/flags.go): empty
renders as empty; more than 32 bytes render as the hex of the first 32
followed by the `...(N bytes)` suffix; otherwise the full hex. -/
def formatBytes (bs : List Nat) : String :=
  if bs.length = 0 then ""
  else if bs.length > 32 then
    bytesHex (List.take 32 bs) ++ "...(" ++ toString bs.length ++ " bytes)"
  else bytesHex bs

/-- `shouldSkipField` (src/cli/flags.go): dereference pointers and
interfaces (nil means skip), then test the kind-appropriate zero value.
`time.Time` has struct kind and is tested with `IsZero`; `time.Duration`
has int64 kind, so its arm is the integer zero test; `[]byte` has slice
kind, so its arm is the length test. -/
def shouldSkipField : Value → Bool
  | .ptr none => true
  | .ptr (some v) => shouldSkipField v
  | .str s => s == ""
  | .bool b => !b
  | .int n => n == 0
  | .uint n => n == 0
  | .float isZero _ => isZero
  | .slice es => es.length == 0
  | .map ps => ps.length == 0
  | .bytes bs => bs.length == 0
  | .time isZero _ => isZero
  | .duration isZero _ => isZero
  | .struct _ => false
  | .err _ => false
  | .other _ => false

/-- `isComplexType` (src/cli/flags.go): dereference pointers and
interfaces (nil means not complex), then test for struct, slice, array or
map kind.  `time.Time` has struct kind and `[]byte` has slice kind, so
both count as complex; `time.Duration` has int64 kind and does not.
An error value is modelled as a scalar carrier of its message. -/
def isComplexType : Value → Bool
  | .ptr none => false
  | .ptr (some v) => isComplexType v
  | .struct _ => true
  | .slice _ => true
  | .map _ => true
  | .bytes _ => true
  | .time _ _ => true
  | _ => false

/-- The underscore test inside the loop of `fieldNameToLabel`
(src/cli/flags.go): at position `i` holding rune `r`, an underscore is
written when `i > 0`, `r` is uppercase, and either the previous character
is lowercase, or it is not and a next character exists and is lowercase. -/
def underscoreBefore (name : List Char) (i : Nat) (r : Char) : Bool :=
  if 0 < i && r.isUpper then
    if (name.getD (i - 1) ' ').isLower then true
    else if i + 1 < name.length then (name.getD (i + 1) ' ').isLower
    else false
  else false

/-- The character-list body of `fieldNameToLabel`: for each position,
optionally an underscore, then the uppercased character. -/
def fieldNameToLabelCore (name : List Char) : List Char :=
  (name.enum.map (fun p =>
    (if underscoreBefore name p.1 p.2 then ['_'] else []) ++ [p.2.toUpper])).flatten

/-- `fieldNameToLabel` (src/cli/flags.go): CamelCase to UPPER_CASE. -/
def fieldNameToLabel (name : String) : String :=
  String.mk (fieldNameToLabelCore name.toList)

mutual

/-- `formatValue` (src/cli/flags.go): dereference pointers and interfaces
(returning empty on nil), then handle the special kinds exactly as
`formatSpecialType` does (timestamp, duration, byte sequence, error),
then dispatch on the kind as the switch statement does.  The struct,
slice and map arms carry the bodies of `formatStruct`, `formatSlice` and
`formatMap` inline (the named wrappers below restate them and coincide
definitionally); this is what lets the recursion be structural. -/
def formatValue : Value → Nat → String
  | .ptr none, _ => ""
  | .ptr (some w), depth => formatValue w depth
  | .time isZero r, _ => if isZero then "" else r
  | .duration isZero r, _ => if isZero then "" else r
  | .bytes bs, _ => formatBytes bs
  | .err none, _ => ""
  | .err (some m), _ => m
  | .struct fs, depth =>
    if depth > maxLLMDepth then "..."
    else formatStructFields fs depth
  | .slice [], _ => ""
  | .slice (e0 :: rest), depth =>
    if depth > maxLLMDepth then "..."
    else if !isComplexType e0 then
      joinStrings " | " (formatPrimItems (e0 :: rest) depth)
    else
      formatIndexed (e0 :: rest) 0 depth
  | .map [], _ => ""
  | .map (e :: rest), depth =>
    if depth > maxLLMDepth then "..."
    else formatMapEntries (e :: rest) depth
  | .str s, _ => s
  | .bool b, _ => if b then "true" else ""
  | .int n, _ => if n = 0 then "" else toString n
  | .uint n, _ => if n = 0 then "" else toString n
  | .float isZero r, _ => if isZero then "" else r
  | .other r, _ => r
termination_by structural v => v

/-- The body of the field loop of `formatStruct` for one field: skip
unexported fields, skip zero fields, format the value at `depth+1`, skip
empty renderings, and emit either the one-line or the nested form. -/
def structField : Nat → String × Bool × Value → String
  | depth, (name, exported, fv) =>
    if !exported then ""
    else if shouldSkipField fv then ""
    else
      let fieldLabel := fieldNameToLabel name
      let formatted := formatValue fv (depth + 1)
      if formatted = "" then ""
      else if containsChar formatted '\n' then
        indent depth ++ fieldLabel ++ ":\n" ++ formatted
      else
        indent depth ++ fieldLabel ++ ": " ++ formatted ++ "\n"
termination_by structural _ f => f

/-- The field loop of `formatStruct`, writing each field into the
builder. -/
def formatStructFields : List (String × Bool × Value) → Nat → String
  | [], _ => ""
  | f :: rest, depth => structField depth f ++ formatStructFields rest depth
termination_by structural fields => fields

/-- The primitive branch of `formatSlice`: format every element at the
same depth and keep the non-empty results.  (The source then returns the
empty string when no item survived; joining the empty list gives the same
result.) -/
def formatPrimItems : List Value → Nat → List String
  | [], _ => []
  | e :: rest, depth =>
    let f := formatValue e depth
    if f = "" then formatPrimItems rest depth
    else f :: formatPrimItems rest depth
termination_by structural elems => elems

/-- The struct branch of `formatSlice`: number the elements from their
position, format each at `depth+1`, and print an index line only for the
elements whose rendering is non-empty. -/
def formatIndexed : List Value → Nat → Nat → String
  | [], _, _ => ""
  | e :: rest, i, depth =>
    let f := formatValue e (depth + 1)
    (if f = "" then "" else indent depth ++ "[" ++ toString i ++ "]\n" ++ f)
      ++ formatIndexed rest (i + 1) depth
termination_by structural elems => elems

/-- The entry loop of `formatMap`: keys are formatted at the same depth,
values at `depth+1`; entries with an empty value rendering are skipped;
the one-line and nested emissions match the struct field ones. -/
def formatMapEntries : List (Value × Value) → Nat → String
  | [], _ => ""
  | (k, v) :: rest, depth =>
    let keyStr := formatValue k depth
    let valueStr := formatValue v (depth + 1)
    (if valueStr = "" then ""
     else if containsChar valueStr '\n' then
       indent depth ++ keyStr ++ ":\n" ++ valueStr
     else
       indent depth ++ keyStr ++ ": " ++ valueStr ++ "\n")
      ++ formatMapEntries rest depth
termination_by structural entries => entries

end

/-- `formatStruct` (src/cli/flags.go): the depth guard, then the field
loop. -/
def formatStruct (fields : List (String × Bool × Value)) (depth : Nat) : String :=
  if depth > maxLLMDepth then "..."
  else formatStructFields fields depth

/-- `formatSlice` (src/cli/flags.go): empty slices render empty before
the depth guard is consulted; then primitives are joined with the pipe
separator and complex elements are numbered. -/
def formatSlice : List Value → Nat → String
  | [], _ => ""
  | e0 :: rest, depth =>
    if depth > maxLLMDepth then "..."
    else if !isComplexType e0 then
      joinStrings " | " (formatPrimItems (e0 :: rest) depth)
    else
      formatIndexed (e0 :: rest) 0 depth

/-- `formatMap` (src/cli/flags.go): empty maps render empty before the
depth guard is consulted; then the entry loop runs.  (Go map iteration
order is unspecified; the model fixes the order of the entry list.) -/
def formatMap : List (Value × Value) → Nat → String
  | [], _ => ""
  | e :: rest, depth =>
    if depth > maxLLMDepth then "..."
    else formatMapEntries (e :: rest) depth

/-- The struct arm of `formatValue` is the inlined `formatStruct`. -/
theorem formatValue_struct (fs : List (String × Bool × Value)) (depth : Nat) :
    formatValue (Value.struct fs) depth = formatStruct fs depth := rfl

/-- The slice arm of `formatValue` is the inlined `formatSlice`. -/
theorem formatValue_slice (es : List Value) (depth : Nat) :
    formatValue (Value.slice es) depth = formatSlice es depth := by
  cases es <;> rfl

/-- The map arm of `formatValue` is the inlined `formatMap`. -/
theorem formatValue_map (ps : List (Value × Value)) (depth : Nat) :
    formatValue (Value.map ps) depth = formatMap ps depth := by
  cases ps <;> rfl

/-- `format` (src/cli/flags.go): nil data renders empty, the root depth
guard, then `formatValue`. -/
def format (data : Option Value) (depth : Nat) : String :=
  match data with
  | none => ""
  | some v => if depth > maxLLMDepth then "..." else formatValue v depth

/-- The output dispatcher (`Output` in the output file): only the
configured format string matters to the formatter claims; the writer is
threaded through `Print` as the string written so far. -/
structure Output where
  format : String

/-- `printLLM` (output file): render the data at depth 0; when the result
is empty, write nothing and return no error; otherwise write the result.
Writing to the modelled in-memory sink always succeeds. -/
def printLLM (sink : String) (data : Option Value) : String × Option String :=
  let output := format data 0
  if output = "" then (sink, none)
  else (sink ++ output, none)

/-- `Output.Print` (output file): the switch on the configured format
string sends `llm` to `printLLM`; the JSON, YAML and plain text branches
delegate to external encoders, which are passed in as a parameter since
they are external library collaborators, not code of this repository. -/
def Print (otherFormats : String → String → Option Value → String × Option String)
    (o : Output) (sink : String) (data : Option Value) : String × Option String :=
  if o.format = "llm" then printLLM sink data
  else otherFormats o.format sink data

/-! ### Claim C1: the field label algorithm -/

/-- The underscore rule exactly as claim C1 states it: an underscore is
inserted before the uppercase character at position i > 0 exactly when
the previous character is a lowercase letter, or the previous character
is itself uppercase and the character at i+1 is a lowercase letter. -/
def claimUnderscoreBefore (name : List Char) (i : Nat) (r : Char) : Bool :=
  decide (0 < i) && r.isUpper &&
    ((name.getD (i - 1) ' ').isLower ||
      ((name.getD (i - 1) ' ').isUpper &&
        (decide (i + 1 < name.length) && (name.getD (i + 1) ' ').isLower)))

/-- The label function claim C1 describes, for comparison with the one
embedded from the source. -/
def claimFieldLabel (name : String) : String :=
  String.mk ((name.toList.enum.map (fun p =>
    (if claimUnderscoreBefore name.toList p.1 p.2 then ['_'] else []) ++
      [p.2.toUpper])).flatten)

/-- The amended underscore rule: an underscore is inserted before the
uppercase character at position i > 0 exactly when the previous character
is a lowercase letter, or the character at position i+1 exists and is a
lowercase letter (whatever the previous character is). -/
def amendedUnderscoreBefore (name : List Char) (i : Nat) (r : Char) : Bool :=
  decide (0 < i) && r.isUpper &&
    ((name.getD (i - 1) ' ').isLower ||
      (decide (i + 1 < name.length) && (name.getD (i + 1) ' ').isLower))

/-- The label function of the amended claim. -/
def amendedFieldLabel (name : String) : String :=
  String.mk ((name.toList.enum.map (fun p =>
    (if amendedUnderscoreBefore name.toList p.1 p.2 then ['_'] else []) ++
      [p.2.toUpper])).flatten)

/-- The source underscore test agrees with the amended rule at every
position of every name. -/
theorem underscoreBefore_eq_amended (name : List Char) (i : Nat) (r : Char) :
    underscoreBefore name i r = amendedUnderscoreBefore name i r := by
  unfold underscoreBefore amendedUnderscoreBefore
  by_cases h1 : 0 < i <;> by_cases h2 : r.isUpper = true <;>
    by_cases h3 : (name.getD (i - 1) ' ').isLower = true <;>
    by_cases h4 : i + 1 < name.length <;>
    simp [h1, h2, h3, h4]

/-- C1 (amended): for every field identifier, `fieldNameToLabel`
upper-cases every character and inserts an underscore immediately before
the character at each position i > 0 that is an uppercase letter exactly
when the previous character is a lowercase letter, or the previous
character is not a lowercase letter and the character at position i+1
exists and is a lowercase letter; in particular it maps Name to NAME,
FieldName to FIELD_NAME, HTTPStatus to HTTP_STATUS, ID to ID, URLPath to
URL_PATH, and XMLParser to XML_PARSER. -/
theorem c1_field_label_amended :
    (∀ name : String, fieldNameToLabel name = amendedFieldLabel name) ∧
    fieldNameToLabel "Name" = "NAME" ∧
    fieldNameToLabel "FieldName" = "FIELD_NAME" ∧
    fieldNameToLabel "HTTPStatus" = "HTTP_STATUS" ∧
    fieldNameToLabel "ID" = "ID" ∧
    fieldNameToLabel "URLPath" = "URL_PATH" ∧
    fieldNameToLabel "XMLParser" = "XML_PARSER" := by
  refine ⟨fun name => ?_, by decide, by decide, by decide, by decide, by decide, by decide⟩
  unfold fieldNameToLabel amendedFieldLabel fieldNameToLabelCore
  simp [underscoreBefore_eq_amended]

/-- C1 counterexample: on the identifier A1Bc the previous character of
the uppercase B is the digit 1, which is neither a lowercase nor an
uppercase letter; the rule stated by the claim therefore inserts no
underscore and predicts A1BC, while the code falls into its second branch
(previous character not lowercase, next character lowercase) and returns
A1_BC. -/
theorem c1_field_label_counterexample :
    fieldNameToLabel "A1Bc" = "A1_BC" ∧ claimFieldLabel "A1Bc" = "A1BC" ∧
    fieldNameToLabel "A1Bc" ≠ claimFieldLabel "A1Bc" := by decide

/-! ### Claim C2: the end-to-end record scenario -/

/-- C2: formatting the record with Name "outer" and Inner holding Value
"inner-value" at root depth 0 returns exactly the two-field rendering:
the single-line field as LABEL: value with a trailing newline, the
multi-line field as LABEL: on its own line followed by the nested block
indented two spaces per depth level. -/
theorem c2_end_to_end :
    format (some (Value.struct [("Name", true, Value.str "outer"),
      ("Inner", true, Value.struct [("Value", true, Value.str "inner-value")])])) 0 =
    "NAME: outer\nINNER:\n  VALUE: inner-value\n" := by decide

/-! ### Claim C3: zero-valued fields are omitted -/

/-- The shape-appropriate zero/empty values enumerated by claim C3:
empty text, false, integer zero, unsigned zero, floating-point zero,
zero-length sequence or mapping or byte sequence, unset timestamp, zero
duration, nil reference. -/
def isClaimZero : Value → Bool
  | .str s => s == ""
  | .bool b => !b
  | .int n => n == 0
  | .uint n => n == 0
  | .float isZero _ => isZero
  | .slice es => es.isEmpty
  | .map ps => ps.isEmpty
  | .bytes bs => bs.isEmpty
  | .time isZero _ => isZero
  | .duration isZero _ => isZero
  | .ptr none => true
  | _ => false

/-- Every zero value of claim C3 is skipped by `shouldSkipField`. -/
theorem shouldSkip_of_claimZero (v : Value) (h : isClaimZero v = true) :
    shouldSkipField v = true := by
  cases v with
  | ptr p => cases p <;> simp_all [isClaimZero, shouldSkipField]
  | _ => simp_all [isClaimZero, shouldSkipField, List.isEmpty_iff]

/-- A field whose value is skipped contributes the empty string to the
field loop. -/
theorem structField_skip (depth : Nat) (name : String) (exported : Bool)
    (v : Value) (h : shouldSkipField v = true) :
    structField depth (name, exported, v) = "" := by
  cases exported <;> simp [structField, h]

/-- The field loop distributes over list concatenation. -/
theorem formatStructFields_append (fs1 fs2 : List (String × Bool × Value)) (depth : Nat) :
    formatStructFields (fs1 ++ fs2) depth =
      formatStructFields fs1 depth ++ formatStructFields fs2 depth := by
  induction fs1 with
  | nil => simp [formatStructFields, String.empty_append]
  | cons f rest ih => simp [formatStructFields, ih, String.append_assoc]

/-- Dropping a skipped field anywhere in a record leaves the rendering
unchanged. -/
theorem formatStruct_drop_skipped (fs1 fs2 : List (String × Bool × Value))
    (name : String) (exported : Bool) (v : Value) (depth : Nat)
    (h : shouldSkipField v = true) :
    formatStruct (fs1 ++ (name, exported, v) :: fs2) depth =
      formatStruct (fs1 ++ fs2) depth := by
  unfold formatStruct
  split
  · rfl
  · rw [formatStructFields_append, formatStructFields_append]
    have h1 : formatStructFields ((name, exported, v) :: fs2) depth =
        structField depth (name, exported, v) ++ formatStructFields fs2 depth := rfl
    rw [h1, structField_skip depth name exported v h, String.empty_append]

/-- C3: for every record, a field whose value is the shape-appropriate
zero/empty value contributes no line at all to the record output:
removing the field leaves the rendering unchanged (so no label and no
blank line is emitted for it). -/
theorem c3_zero_omission (depth : Nat) (name : String) (exported : Bool)
    (v : Value) (fs1 fs2 : List (String × Bool × Value))
    (h : isClaimZero v = true) :
    formatStruct (fs1 ++ (name, exported, v) :: fs2) depth =
      formatStruct (fs1 ++ fs2) depth :=
  formatStruct_drop_skipped fs1 fs2 name exported v depth (shouldSkip_of_claimZero v h)

/-- C3 witness: a record with an empty-string field B renders exactly as
the record without B. -/
theorem c3_zero_omission_witness :
    isClaimZero (Value.str "") = true ∧
    formatStruct [("A", true, Value.str "x"), ("B", true, Value.str "")] 0 =
      formatStruct [("A", true, Value.str "x")] 0 :=
  ⟨by decide,
    c3_zero_omission 0 "B" true (Value.str "") [("A", true, Value.str "x")] [] (by decide)⟩

/-! ### Claim C4: the depth bound -/

/-- C4 counterexample: an empty sequence reached at depth 6 (exceeding
the maximum of 5) renders as the empty string, not as the truncation
marker, because the emptiness test precedes the depth guard; and a
7-level chain of nested sequences whose innermost sequence is empty
renders as the empty string overall, so an input nested deeper than the
maximum can produce output without the marker. -/
theorem c4_depth_counterexample :
    formatValue (Value.slice []) 6 = "" ∧
    formatValue (Value.slice []) 6 ≠ "..." ∧
    format (some (Value.slice [Value.slice [Value.slice [Value.slice [Value.slice
      [Value.slice [Value.slice []]]]]]])) 0 = "" := by decide

/-- C4 (amended): formatting terminates on every input; on reaching a
record at a depth exceeding the maximum of 5, or a non-empty sequence or
mapping at such a depth, the formatter returns the truncation marker and
performs no further traversal of children (the result is independent of
the children); an empty sequence or mapping returns the empty string even
beyond the maximum depth.  A 10-level chain of nested one-field records
renders with the marker in place of the too-deep subtree. -/
theorem c4_depth_bound_amended :
    (∀ (fs : List (String × Bool × Value)) (d : Nat), d > maxLLMDepth →
        formatStruct fs d = "...") ∧
    (∀ (es : List Value) (d : Nat), es ≠ [] → d > maxLLMDepth →
        formatSlice es d = "...") ∧
    (∀ (ps : List (Value × Value)) (d : Nat), ps ≠ [] → d > maxLLMDepth →
        formatMap ps d = "...") ∧
    format (some (Value.struct [("F", true, Value.struct [("F", true, Value.struct
      [("F", true, Value.struct [("F", true, Value.struct [("F", true, Value.struct
      [("F", true, Value.struct [("F", true, Value.struct [("F", true, Value.struct
      [("F", true, Value.struct [("F", true, Value.str "x")])])])])])])])])])])) 0 =
      "F:\n  F:\n    F:\n      F:\n        F:\n          F: ...\n" := by
  refine ⟨?_, ?_, ?_, by decide⟩
  · intro fs d h
    unfold formatStruct
    simp [h]
  · intro es d hne h
    cases es with
    | nil => exact absurd rfl hne
    | cons e0 rest => simp [formatSlice, h]
  · intro ps d hne h
    cases ps with
    | nil => exact absurd rfl hne
    | cons p rest => simp [formatMap, h]

/-- C4 witness: a record, a non-empty sequence and a non-empty mapping
reached at depth 6 all render as the truncation marker. -/
theorem c4_depth_bound_amended_witness :
    formatStruct [] 6 = "..." ∧
    formatSlice [Value.str "x"] 6 = "..." ∧
    formatMap [(Value.str "k", Value.str "v")] 6 = "..." :=
  ⟨c4_depth_bound_amended.1 [] 6 (by decide),
   c4_depth_bound_amended.2.1 [Value.str "x"] 6 (by simp) (by decide),
   c4_depth_bound_amended.2.2.1 [(Value.str "k", Value.str "v")] 6 (by simp) (by decide)⟩

/-! ### Claim C5: totality -/

/-- C5: the formatter is a total function: every value of every shape,
and every root datum, renders to some string (the embedded definitions
are total Lean functions, so no error and no panic is possible), and a
value of an unrecognized kind renders as its generic fallback
representation rather than failing. -/
theorem c5_total_function :
    (∀ (v : Value) (d : Nat), ∃ s : String, formatValue v d = s) ∧
    (∀ (r : String) (d : Nat), formatValue (Value.other r) d = r) ∧
    (∀ (data : Option Value) (d : Nat), ∃ s : String, format data d = s) :=
  ⟨fun v d => ⟨formatValue v d, rfl⟩,
   fun _ _ => rfl,
   fun data d => ⟨format data d, rfl⟩⟩

/-! ### Claim C6: the byte-sequence policy -/

/-- C6: a raw byte sequence renders as the empty string when empty; as
the hexadecimal of its first 32 bytes followed by the byte-count suffix
when longer than 32 bytes; and as the hexadecimal of all its bytes
otherwise.  The 40-byte, 10-byte and empty examples evaluate accordingly. -/
theorem c6_bytes_policy :
    (∀ (bs : List Nat) (d : Nat),
        formatValue (Value.bytes bs) d =
          if bs.length = 0 then ""
          else if bs.length > 32 then
            bytesHex (List.take 32 bs) ++ "...(" ++ toString bs.length ++ " bytes)"
          else bytesHex bs) ∧
    formatValue (Value.bytes (List.range 40)) 0 =
      "000102030405060708090a0b0c0d0e0f101112131415161718191a1b1c1d1e1f...(40 bytes)" ∧
    formatValue (Value.bytes (List.range 10)) 0 = "00010203040506070809" ∧
    formatValue (Value.bytes []) 0 = "" :=
  ⟨fun _ _ => rfl, by decide, by decide, by decide⟩

/-! ### Claim C7: primitive sequences join with the pipe separator -/

/-- The primitive item loop keeps exactly the non-empty renderings of the
elements, in order. -/
theorem formatPrimItems_eq_filter (es : List Value) (d : Nat) :
    formatPrimItems es d =
      (es.map (fun e => formatValue e d)).filter (fun s => s != "") := by
  induction es with
  | nil => rfl
  | cons e rest ih =>
    simp only [formatPrimItems, List.map_cons, List.filter_cons, ih]
    by_cases h : formatValue e d = "" <;> simp [h]

/-- C7: the empty sequence renders as the empty string; a sequence whose
first element is a scalar (not a record, sequence or mapping, as decided
by `isComplexType`) renders, within the depth bound, as the non-empty
renderings of all its elements joined by the pipe separator; the
three-string example renders on one line. -/
theorem c7_primitive_sequence_join :
    (∀ d : Nat, formatSlice [] d = "") ∧
    (∀ (e0 : Value) (rest : List Value) (d : Nat),
        isComplexType e0 = false → d ≤ maxLLMDepth →
        formatSlice (e0 :: rest) d =
          joinStrings " | "
            (((e0 :: rest).map (fun e => formatValue e d)).filter (fun s => s != ""))) ∧
    formatValue (Value.slice [Value.str "go", Value.str "cli", Value.str "tool"]) 0 =
      "go | cli | tool" := by
  refine ⟨fun _ => rfl, ?_, by decide⟩
  intro e0 rest d hc hd
  have hnd : ¬ d > maxLLMDepth := by omega
  simp [formatSlice, hnd, hc, formatPrimItems_eq_filter]

/-- C7 witness: a two-element scalar sequence with one empty rendering. -/
theorem c7_primitive_sequence_join_witness :
    formatSlice [Value.str "a", Value.str ""] 0 =
      joinStrings " | "
        ((([Value.str "a", Value.str ""]).map (fun e => formatValue e 0)).filter
          (fun s => s != "")) :=
  c7_primitive_sequence_join.2.1 (Value.str "a") [Value.str ""] 0 (by decide) (by decide)

/-! ### Claim C8: boolean asymmetry -/

/-- C8: true always renders as the literal string true; false always
renders as the empty string; consequently a record field holding false is
omitted from the record output, at every depth and position. -/
theorem c8_bool_asymmetry :
    (∀ d : Nat, formatValue (Value.bool true) d = "true") ∧
    (∀ d : Nat, formatValue (Value.bool false) d = "") ∧
    (∀ (d : Nat) (name : String) (exported : Bool)
        (fs1 fs2 : List (String × Bool × Value)),
        formatStruct (fs1 ++ (name, exported, Value.bool false) :: fs2) d =
          formatStruct (fs1 ++ fs2) d) :=
  ⟨fun _ => rfl, fun _ => rfl,
   fun d name exported fs1 fs2 =>
     formatStruct_drop_skipped fs1 fs2 name exported (Value.bool false) d rfl⟩

/-! ### Claim C9: the llm branch of Print writes nothing on empty output -/

/-- C9: when the configured output format is llm and the formatter
renders the data to the empty string, Print writes zero bytes to the
writer (the sink string is unchanged) and returns no error. -/
theorem c9_print_llm_empty
    (otherFormats : String → String → Option Value → String × Option String)
    (o : Output) (sink : String) (data : Option Value)
    (hfmt : o.format = "llm") (hout : format data 0 = "") :
    Print otherFormats o sink data = (sink, none) := by
  unfold Print printLLM
  simp [hfmt, hout]

/-- C9 witness: printing nil data in llm format leaves the sink alone. -/
theorem c9_print_llm_empty_witness :
    Print (fun _ s _ => (s, none)) (Output.mk "llm") "before" none = ("before", none) :=
  c9_print_llm_empty (fun _ s _ => (s, none)) (Output.mk "llm") "before" none rfl rfl

/-! ### Claim C10: indexed rendering of complex sequences -/

/-- The numbered loop renders each element at its original position:
element j of a run started at index i is prefixed by the bracketed index
i+j exactly when its rendering is non-empty, and empty elements
contribute nothing while later indices are unchanged. -/
theorem formatIndexed_enumFrom (es : List Value) (i d : Nat) :
    formatIndexed es i d =
      concatAll ((List.enumFrom i es).map (fun p =>
        if formatValue p.2 (d + 1) = "" then ""
        else indent d ++ "[" ++ toString p.1 ++ "]\n" ++ formatValue p.2 (d + 1))) := by
  induction es generalizing i with
  | nil => rfl
  | cons e rest ih =>
    simp only [formatIndexed, List.enumFrom, List.map_cons, concatAll, ih]

/-- C10: in a sequence of complex elements each element whose rendering
is non-empty is prefixed by its original zero-based position in brackets;
elements rendering empty are omitted without renumbering the rest, so a
bracketed 1 can appear with no preceding bracketed 0, as in the closed
example whose first element is an empty record. -/
theorem c10_indexed_elements :
    (∀ (es : List Value) (i d : Nat),
        formatIndexed es i d =
          concatAll ((List.enumFrom i es).map (fun p =>
            if formatValue p.2 (d + 1) = "" then ""
            else indent d ++ "[" ++ toString p.1 ++ "]\n" ++ formatValue p.2 (d + 1)))) ∧
    (∀ (e0 : Value) (rest : List Value) (d : Nat),
        isComplexType e0 = true → d ≤ maxLLMDepth →
        formatSlice (e0 :: rest) d = formatIndexed (e0 :: rest) 0 d) ∧
    formatValue (Value.slice [Value.struct [],
      Value.struct [("Name", true, Value.str "x")]]) 0 = "[1]\n  NAME: x\n" := by
  refine ⟨formatIndexed_enumFrom, ?_, by decide⟩
  intro e0 rest d hc hd
  have hnd : ¬ d > maxLLMDepth := by omega
  simp [formatSlice, hnd, hc]

/-- C10 witness: the complex branch applies to a one-element record
sequence at depth 0. -/
theorem c10_indexed_elements_witness :
    formatSlice [Value.struct []] 0 = formatIndexed [Value.struct []] 0 0 :=
  c10_indexed_elements.2.1 (Value.struct []) [] 0 (by decide) (by decide)

end Gzh
